import Mathlib

/-!
# Verification of the rnix-experiments abstract evaluator

A shallow embedding of `src/main.rs`: a static provenance analyzer for
call-package-style Nix modules.  Every definition below is translated from
the Rust source; comments cite the corresponding lines.

Modelling conventions:
* Rust `HashMap<String, _>` is modelled as an association list with
  overwrite-on-insert (`insertAL`) and key lookup (`lookupAL`); only
  `get`/`insert` behaviour of the maps is observable in the source.
* The rnix AST accessors (`with.namespace()`, `attrval.value()`, ...) return
  `Option` because rnix is a lossless CST that can represent parse errors;
  the analysis claims concern well-formed trees, so the embedding makes
  those sub-nodes total fields.  Payloads the evaluator never inspects
  (string contents, operator kinds, pattern defaults) are dropped.
* Rust recursion has no explicit bound; Lean requires totality, so
  `eval_object` takes a fuel argument counting call depth and returns
  `Res.outOfFuel` when it runs out.  The theorem `c9_structural_termination`
  shows fuel at least `sizeOf e` is never exhausted, so the fuelled
  function agrees with the unbounded Rust recursion on every input.
* `todo!()` macro invocations (a Rust panic) are modelled as the distinct
  outcome `Res.panicked`, separate from the structured `eyre!` errors
  (`Res.err`).
-/

namespace Rnix

/-- rnix `Attr` as used by `main.rs`: only the `Ident` payload is ever read;
`Dynamic` and `Str` attributes are matched and sent to `todo!()` or an
error, so their payloads are dropped. -/
inductive Attr
  | ident (name : String)
  | dynAttr
  | strAttr
deriving Repr

/-- The lambda parameter (`rnix::ast::Param`): either a destructuring
pattern (optional `@`-bind ident plus the list of field idents; defaults are
never read by `main.rs`) or a plain identifier. -/
inductive Param
  | pattern (patBind : Option String) (patEntries : List String)
  | identParam (name : String)
deriving Repr

mutual
/-- rnix `Expr`, with exactly the node kinds of `token_type` (main.rs
lines 105-128).  Kinds the evaluator only ever names in its catch-all error
carry no payload. -/
inductive Expr
  | apply (lambda : Expr) (argument : Expr)
  | assert
  | error
  | ifElse
  | select (base : Expr) (attrpath : List Attr)
  | str
  | path
  | literal
  | lambda (param : Param) (body : Expr)
  | legacyLet
  | letIn (entries : List Entry) (body : Expr)
  | list
  | binOp
  | paren
  | root
  | attrSet (isRec : Bool) (entries : List Entry)
  | unaryOp
  | ident (name : String)
  | with_ (ns : Expr) (body : Expr)
  | hasAttr
deriving Repr

/-- rnix `Entry`: an attrpath/value binding or an inherit clause (whose
payload `main.rs` never reads before hitting `todo!()`). -/
inductive Entry
  | attrpathValue (attrpath : List Attr) (value : Expr)
  | inheritEntry
deriving Repr
end

mutual
/-- Rust `NixObject` (main.rs lines 6-11). -/
inductive NixObject
  | set (s : NixSet)
  | nixpkg (name : String)
  | formatFactory (format_type : String)
deriving Repr

/-- Rust `NixSet` (main.rs lines 30-39); the `HashMap` inside `Dyn` is an
assoc list. -/
inductive NixSet
  | dyn (m : List (String × NixObject))
  | callpkgArgs
  | lib
  | nixpkgs
  | config
  | configVal (path : List String)
  | pkgsFormats
deriving Repr
end

/-- Structured counterparts of the `eyre!` error sites in `main.rs`; each
constructor is one distinct message template, carrying its dynamic parts. -/
inductive EvalErr
  /-- Message template `nixpkg {} cannot be treated as set` (line 17) -/
  | notASetNixpkg (pkg : String)
  /-- Message template `{} format factory cannot be treated as set` (lines 18-21) -/
  | notASetFormatFactory (format_type : String)
  /-- Message "cannot apply lambda of type {:#?}" (line 26), carrying the callee -/
  | cannotApply (callee : NixObject)
  /-- Message "expect single attr in let attrpath, found {}" (lines 152-157) -/
  | letAttrCount (found : Nat)
  /-- Message "unexpected let attr type" (lines 158-160) -/
  | unexpectedLetAttrType
  /-- Message "unimplemented" non-ident attr in a set entry path (lines 194-196) -/
  | unimplementedAttr
  /-- Message "value not in scope: {}" (lines 213-215 and 224-228) -/
  | valueNotInScope (name : String)
  /-- Message "cannot eval object of type: {}" (line 239) -/
  | cannotEvalType (kind : String)
deriving Repr

/-- Outcome of one evaluation.  `panicked` models a `todo!()` panic;
`outOfFuel` is the Lean-side fuel marker (see module docstring), proved
unreachable for sufficient fuel in `c9_structural_termination`. -/
inductive Res
  | ok (v : NixObject)
  | err (e : EvalErr)
  | panicked
  | outOfFuel
deriving Repr

/-- Assoc-list lookup, modelling `HashMap::get`. -/
def lookupAL {α : Type} : List (String × α) → String → Option α
  | [], _ => none
  | (k', v) :: rest, k => if k' == k then some v else lookupAL rest k

/-- Assoc-list insert with overwrite, modelling `HashMap::insert`. -/
def insertAL {α : Type} : List (String × α) → String → α → List (String × α)
  | [], k, v => [(k, v)]
  | (k', v') :: rest, k, v =>
    if k' == k then (k, v) :: rest else (k', v') :: insertAL rest k v

/-- Rust `CALLPACKAGE_ARGS` phf map (main.rs lines 41-45). -/
def CALLPACKAGE_ARGS : List (String × NixSet) :=
  [("lib", .lib), ("pkgs", .nixpkgs), ("config", .config)]

/-- Rust `LIB` phf map (main.rs line 47): empty. -/
def LIB : List (String × NixSet) := []

/-- Rust `lookup_nixpkg` (main.rs lines 49-54). -/
def lookup_nixpkg (name : String) : NixObject :=
  if name == "formats" then .set .pkgsFormats else .nixpkg name

/-- Rust `NixSet::lookup` (main.rs lines 56-77).  The helper `h` of the source
maps a phf-table hit to `NixObject::Set`. -/
def NixSet.lookup : NixSet → String → Option NixObject
  | .dyn s, k => lookupAL s k
  | .callpkgArgs, k => (lookupAL CALLPACKAGE_ARGS k).map NixObject.set
  | .lib, k => (lookupAL LIB k).map NixObject.set
  | .nixpkgs, k => some (lookup_nixpkg k)
  | .config, k => some (.set (.configVal [k]))
  | .configVal p, k => some (.set (.configVal (p ++ [k])))
  | .pkgsFormats, k => some (.formatFactory k)

/-- Rust `NixObject::try_into_set` (main.rs lines 14-23). -/
def NixObject.try_into_set : NixObject → Except EvalErr NixSet
  | .set s => .ok s
  | .nixpkg pkg => .error (.notASetNixpkg pkg)
  | .formatFactory t => .error (.notASetFormatFactory t)

/-- Rust `NixObject::apply` (main.rs lines 25-27): unconditionally fails, the
argument is ignored by the source as well. -/
def NixObject.apply (self : NixObject) (_arg : NixObject) :
    Except EvalErr NixObject :=
  .error (.cannotApply self)

/-- Rust `Scope` (main.rs lines 79-83): explicit bindings plus the `with`
namespace stack.  `Vec::push` appends at the list's end, so the head of
`with_namespaces` is the outermost entry. -/
structure Scope where
  items : List (String × NixObject)
  with_namespaces : List NixSet
deriving Repr

/-- Rust `Scope::new` (main.rs lines 86-88). -/
def Scope.new : Scope := ⟨[], []⟩

/-- The namespace scan inside `Scope::lookup` (main.rs lines 96-100):
`for namespace in self.with_namespaces.iter()` — front to back, i.e.
outermost first. -/
def scanNamespaces : List NixSet → String → Option NixObject
  | [], _ => none
  | ns :: rest, k =>
    match ns.lookup k with
    | some obj => some obj
    | none => scanNamespaces rest k

/-- Rust `Scope::lookup` (main.rs lines 92-102): `items` first, then the
namespace stack in iteration order. -/
def Scope.lookup (s : Scope) (k : String) : Option NixObject :=
  match lookupAL s.items k with
  | some obj => some obj
  | none => scanNamespaces s.with_namespaces k

/-- Rust `token_type` (main.rs lines 105-128). -/
def token_type : Expr → String
  | .apply _ _ => "apply"
  | .assert => "assert"
  | .error => "error"
  | .ifElse => "ifelse"
  | .select _ _ => "select"
  | .str => "str"
  | .path => "path"
  | .literal => "literal"
  | .lambda _ _ => "lambda"
  | .legacyLet => "legacylet"
  | .letIn _ _ => "letin"
  | .list => "list"
  | .binOp => "binop"
  | .paren => "paren"
  | .root => "root"
  | .attrSet _ _ => "attrset"
  | .unaryOp => "unaryop"
  | .ident _ => "ident"
  | .with_ _ _ => "with"
  | .hasAttr => "hasattr"

/-- The `try_fold` of the `Expr::Select` arm (main.rs lines 219-231):
walk the attrpath from an initial object; `Ident` coerces the current value
to a set and looks the name up (absent reuses the "value not in scope"
message, line 228); `Dynamic`/`Str` attrs hit `todo!()`. -/
def foldSelect : NixObject → List Attr → Res
  | prev, [] => .ok prev
  | prev, .ident i :: rest =>
    match prev.try_into_set with
    | .error e => .err e
    | .ok s =>
      match s.lookup i with
      | some v => foldSelect v rest
      | none => .err (.valueNotInScope i)
  | _, .dynAttr :: _ => .panicked
  | _, .strAttr :: _ => .panicked

/-- Result of installing `let` entries: the extended scope, or a propagated
failure. -/
inductive LRes
  | ok (scope : Scope)
  | fail (r : Res)
deriving Repr

/-- The entry loop of the `Expr::LetIn` arm (main.rs lines 144-170):
each `AttrpathValue` entry must have exactly one attr (else "expect single
attr in let attrpath") which must be an `Ident` (else "unexpected let attr
type"); its value is evaluated in the scope extended by the *previous*
entries and inserted.  `Inherit` entries hit `todo!()` (lines 166-168). -/
def foldLetEntries (ev : Scope → Expr → Res) :
    Scope → List Entry → LRes
  | scope, [] => .ok scope
  | scope, .attrpathValue attrs value :: rest =>
    match attrs with
    | [.ident name] =>
      match ev scope value with
      | .ok v =>
        foldLetEntries ev ⟨insertAL scope.items name v, scope.with_namespaces⟩ rest
      | r => .fail r
    | [_] => .fail (.err .unexpectedLetAttrType)
    | _ => .fail (.err (.letAttrCount attrs.length))
  | _, .inheritEntry :: _ => .fail .panicked

/-- The entry loop of the `Expr::AttrSet` arm (main.rs lines 177-211).
Each `AttrpathValue` entry first evaluates its value (lines 181-184) in
`new_scope`, which is an unmodified clone of the enclosing scope (the `rec`
flag is computed, line 174, but never used); then every attr of the path
must be an `Ident` (else the "unimplemented" error, lines 194-196).  The
path-merging block (lines 185-206) does not compile as written (reassigning
the immutable `entry`, mismatched match-arm types) and its `set_vals`
accumulator never escapes: after the loop the arm unconditionally reaches
`todo!()` (line 211), as does any non-`AttrpathValue` entry (line 208). -/
def foldSetEntries (ev : Scope → Expr → Res) :
    Scope → List Entry → Res
  | _, [] => .panicked
  | scope, .attrpathValue attrs value :: rest =>
    match ev scope value with
    | .ok _ =>
      if attrs.all (fun a => match a with | .ident _ => true | _ => false) then
        foldSetEntries ev scope rest
      else
        .err .unimplementedAttr
    | r => r
  | _, .inheritEntry :: _ => .panicked

/-- One step of `eval_object` (main.rs lines 130-241), with every recursive
call routed through `ev`.

* `With` (lines 132-141): the namespace sub-expression is evaluated in the
  *enclosing* `scope`; the child scope has empty `items`, the old items
  folded in as a `Dyn` namespace, and the new namespace pushed after it.
* `LetIn` (lines 142-171): entries are installed into `new_scope`, but the
  body is evaluated with the *original* `scope` (line 171 passes `scope`,
  not `&new_scope`), so the installed bindings are discarded.
* `AttrSet` (lines 173-211): see `foldSetEntries`.
* `Ident` (lines 213-215), `Select` (lines 216-232), `Apply` (lines
  233-238), and the catch-all error (line 239). -/
def evalStep (ev : Scope → Expr → Res) (scope : Scope) : Expr → Res
  | .with_ nsExpr body =>
    match ev scope nsExpr with
    | .ok v =>
      match v.try_into_set with
      | .ok st =>
        ev ⟨[], scope.with_namespaces ++ [.dyn scope.items, st]⟩ body
      | .error e => .err e
    | r => r
  | .letIn entries body =>
    match foldLetEntries ev scope entries with
    | .ok _newScope => ev scope body
    | .fail r => r
  | .attrSet _isRec entries => foldSetEntries ev scope entries
  | .ident name =>
    match scope.lookup name with
    | some obj => .ok obj
    | none => .err (.valueNotInScope name)
  | .select base attrpath =>
    match ev scope base with
    | .ok initial => foldSelect initial attrpath
    | r => r
  | .apply lam arg =>
    match ev scope lam with
    | .ok lambda =>
      match ev scope arg with
      | .ok argument =>
        match lambda.apply argument with
        | .ok v => .ok v
        | .error e => .err e
      | r => r
    | r => r
  | e => .err (.cannotEvalType (token_type e))

/-- Rust `eval_object` (main.rs lines 130-241) with call-depth fuel (see the
module docstring). -/
def eval_object : Nat → Scope → Expr → Res
  | 0, _, _ => .outOfFuel
  | n + 1, scope, e => evalStep (fun s e' => eval_object n s e') scope e

/-- Outcome of the `main` driver (main.rs lines 243-283), restricted to the
analysis pipeline (file loading, parsing and `color_eyre` installation are
the excluded glue layer).  One constructor per `eyre!` site reachable on a
well-formed tree, plus the propagated evaluator outcomes.  On success `main`
discards the evaluated value (line 281 `eval_object(&scope, body)?;`) and
returns `Ok(())`. -/
inductive MainRes
  /-- Rust `Ok(())` -/
  | ok
  /-- Message "file does not contain a lambda" (lines 249-251) -/
  | errNotALambda
  /-- Message "top-level lambda does not destructure its argument" (lines 257-259) -/
  | errNoDestructure
  /-- Message "unknown callPackage arg: {}" (line 274) -/
  | errUnknownCallpkgArg (name : String)
  /-- an evaluator error propagated by `?` on line 281 -/
  | errEval (e : EvalErr)
  /-- a `todo!()` panic inside the evaluator -/
  | panicked
  /-- fuel marker, as in `Res` -/
  | outOfFuel
deriving Repr

/-- The scope `main` starts from (main.rs lines 253, 260-265): empty, then
the `@`-bind (if present) mapped to `NixSet::CallpkgArgs`. -/
def initialScope : Option String → Scope
  | some bindName => ⟨insertAL [] bindName (.set .callpkgArgs), []⟩
  | none => Scope.new

/-- The `pat_entries` loop of `main` (main.rs lines 266-278): each
destructured field is looked up in `CALLPACKAGE_ARGS` (unknown names fail)
and bound to the matching namespace value. -/
def addPatEntries : Scope → List String → Except String Scope
  | scope, [] => .ok scope
  | scope, name :: rest =>
    match lookupAL CALLPACKAGE_ARGS name with
    | some v =>
      addPatEntries ⟨insertAL scope.items name (.set v), scope.with_namespaces⟩ rest
    | none => .error name

/-- Rust `main` (main.rs lines 243-283) applied to an already-parsed top-level
expression: require a lambda with a destructuring pattern, build the
initial scope, evaluate the body, and discard the resulting value. -/
def runMain (fuel : Nat) (top : Expr) : MainRes :=
  match top with
  | .lambda param body =>
    match param with
    | .identParam _ => .errNoDestructure
    | .pattern patBind patEntries =>
      match addPatEntries (initialScope patBind) patEntries with
      | .error name => .errUnknownCallpkgArg name
      | .ok scope =>
        match eval_object fuel scope body with
        | .ok _ => .ok
        | .err e => .errEval e
        | .panicked => .panicked
        | .outOfFuel => .outOfFuel
  | _ => .errNotALambda

/-- The scope `main` builds for the module parameter pattern
`{ pkgs, ... }` (see `addPatEntries`). -/
def pkgsScope : Scope := ⟨[("pkgs", .set .nixpkgs)], []⟩

/-- The scope `main` builds for the module parameter pattern
`{ lib, pkgs, config, ... }` (see `addPatEntries`). -/
def fullArgsScope : Scope :=
  ⟨[("lib", .set .lib), ("pkgs", .set .nixpkgs), ("config", .set .config)], []⟩

/-! ## Theorems -/

/-- Every expression node has positive size (used to rule out the zero-fuel
case of `eval_object`). -/
theorem expr_sizeOf_pos (e : Expr) : 0 < sizeOf e := by
  cases e <;> simp_arith

/-- The attrpath walk of the `Select` arm never consumes fuel, hence never
reports fuel exhaustion. -/
theorem foldSelect_no_outOfFuel (attrs : List Attr) :
    ∀ prev : NixObject, foldSelect prev attrs ≠ Res.outOfFuel := by
  induction attrs with
  | nil => intro prev; simp [foldSelect]
  | cons head rest ih =>
    intro prev
    cases head with
    | ident i =>
      simp only [foldSelect]
      cases hts : prev.try_into_set with
      | error e => simp
      | ok s =>
        simp only []
        cases hl : s.lookup i with
        | none => simp
        | some v => exact ih v
    | dynAttr => simp [foldSelect]
    | strAttr => simp [foldSelect]

/-- If depth-`n` evaluation cannot exhaust fuel on expressions of size at
most `n`, neither can the attribute-set entry loop on entry lists of size at
most `n`. -/
theorem foldSetEntries_no_outOfFuel (n : Nat)
    (ih : ∀ (s : Scope) (e : Expr), sizeOf e ≤ n → eval_object n s e ≠ Res.outOfFuel) :
    ∀ (entries : List Entry) (scope : Scope), sizeOf entries ≤ n →
      foldSetEntries (fun s e => eval_object n s e) scope entries ≠ Res.outOfFuel := by
  intro entries
  induction entries with
  | nil => intro scope h; simp [foldSetEntries]
  | cons head rest ihl =>
    intro scope h
    cases head with
    | inheritEntry => simp [foldSetEntries]
    | attrpathValue attrs value =>
      have hv : sizeOf value ≤ n := by simp at h; omega
      have hr : sizeOf rest ≤ n := by simp at h; omega
      simp only [foldSetEntries]
      cases hev : eval_object n scope value with
      | ok v =>
        simp only []
        by_cases hall : attrs.all (fun a => match a with | .ident _ => true | _ => false) = true
        · rw [if_pos hall]
          exact ihl scope hr
        · rw [if_neg hall]
          simp
      | err e => simp
      | panicked => simp
      | outOfFuel => exact absurd hev (ih scope value hv)

/-- If depth-`n` evaluation cannot exhaust fuel on expressions of size at
most `n`, neither can the `let` entry loop on entry lists of size at most
`n`. -/
theorem foldLetEntries_no_outOfFuel (n : Nat)
    (ih : ∀ (s : Scope) (e : Expr), sizeOf e ≤ n → eval_object n s e ≠ Res.outOfFuel) :
    ∀ (entries : List Entry) (scope : Scope), sizeOf entries ≤ n →
      foldLetEntries (fun s e => eval_object n s e) scope entries ≠ LRes.fail Res.outOfFuel := by
  intro entries
  induction entries with
  | nil => intro scope h; simp [foldLetEntries]
  | cons head rest ihl =>
    intro scope h
    cases head with
    | inheritEntry => simp [foldLetEntries]
    | attrpathValue attrs value =>
      have hv : sizeOf value ≤ n := by simp at h; omega
      have hr : sizeOf rest ≤ n := by simp at h; omega
      match attrs with
      | [Attr.ident name] =>
        simp only [foldLetEntries]
        cases hev : eval_object n scope value with
        | ok v => simp only []; exact ihl _ hr
        | err e => simp
        | panicked => simp
        | outOfFuel => exact absurd hev (ih scope value hv)
      | [Attr.dynAttr] => simp [foldLetEntries]
      | [Attr.strAttr] => simp [foldLetEntries]
      | [] => simp [foldLetEntries]
      | a :: b :: l => simp [foldLetEntries]

/-- Claim C1 (refuted; the code has it backwards): name lookup does NOT
consult the dynamic scopes innermost-first.  In the module
`{ pkgs, ... }: with pkgs; with pkgs.formats; json` the name `json` is a
member of both entered namespaces — the inner one (`pkgs.formats`) maps it
to a format factory, the outer one (`pkgs`) to an external package — yet
evaluation returns the OUTER member: `Scope::lookup` scans
`with_namespaces` front to back while `with` pushes at the back, so the
outermost dynamic scope wins.  First conjunct ties the initial scope to the
`main` driver. -/
theorem c1_nested_with_outer_scope_wins :
    addPatEntries (initialScope none) ["pkgs"] = .ok pkgsScope
    ∧ eval_object 6 pkgsScope
        (.with_ (.ident "pkgs")
          (.with_ (.select (.ident "pkgs") [.ident "formats"]) (.ident "json")))
      = .ok (.nixpkg "json")
    ∧ NixSet.pkgsFormats.lookup "json" = some (.formatFactory "json")
    ∧ NixSet.nixpkgs.lookup "json" = some (.nixpkg "json") :=
  ⟨rfl, rfl, rfl, rfl⟩

/-- Claim C2 (refuted; the folded bindings rank too low): an explicitly
bound name does NOT outrank every dynamic scope after a further `with` is
entered.  After `{ lib, pkgs, config, ... }` and `with pkgs`, the `let`
entry `zlib = config` produces a scope whose `items` explicitly bind `zlib`
to the config namespace (second and third conjuncts); evaluating
`with lib; zlib` there folds that binding into the dynamic chain BEHIND the
pre-existing `pkgs` namespace, so lookup returns the external package
`zlib` from `pkgs` instead of the explicitly bound value (fourth
conjunct). -/
theorem c2_explicit_binding_loses_to_outer_dynamic_scope :
    addPatEntries (initialScope none) ["lib", "pkgs", "config"] = .ok fullArgsScope
    ∧ foldLetEntries (fun s e => eval_object 4 s e)
        ⟨[], [.dyn fullArgsScope.items, .nixpkgs]⟩
        [.attrpathValue [.ident "zlib"] (.ident "config")]
      = .ok ⟨[("zlib", .set .config)], [.dyn fullArgsScope.items, .nixpkgs]⟩
    ∧ Scope.lookup ⟨[("zlib", .set .config)], [.dyn fullArgsScope.items, .nixpkgs]⟩ "zlib"
      = some (.set .config)
    ∧ eval_object 5 ⟨[("zlib", .set .config)], [.dyn fullArgsScope.items, .nixpkgs]⟩
        (.with_ (.ident "lib") (.ident "zlib"))
      = .ok (.nixpkg "zlib") :=
  ⟨rfl, rfl, rfl, rfl⟩

/-- Claim C3 (refuted by a slip in the code): the `let` body is NOT
evaluated in the environment extended with the bindings.  For
`{ pkgs, ... }: let x = pkgs; in x` the entry loop does install
`x` (second conjunct shows the extended scope it builds), but line 171 of
main.rs passes the original `scope` — not `new_scope` — to the body, so `x`
is reported out of scope (first conjunct). -/
theorem c3_let_body_evaluated_in_pre_let_scope :
    eval_object 3 pkgsScope
        (.letIn [.attrpathValue [.ident "x"] (.ident "pkgs")] (.ident "x"))
      = .err (.valueNotInScope "x")
    ∧ foldLetEntries (fun s e => eval_object 2 s e) pkgsScope
        [.attrpathValue [.ident "x"] (.ident "pkgs")]
      = .ok ⟨[("pkgs", .set .nixpkgs), ("x", .set .nixpkgs)], []⟩ :=
  ⟨rfl, rfl⟩

/-- Claim C4 (refuted; `apply` is a stub): applying a `FormatFactory` to an
abstract set does NOT yield a generated-format value.  In
`{ pkgs, ... }: pkgs.formats.json pkgs` the callee evaluates to the format
factory tagged `json` (second conjunct) and the argument to an abstract set
(third conjunct), yet `NixObject::apply` unconditionally fails with its
`cannot apply lambda` error naming the callee (first conjunct). -/
theorem c4_format_factory_application_fails :
    eval_object 5 pkgsScope
        (.apply (.select (.ident "pkgs") [.ident "formats", .ident "json"]) (.ident "pkgs"))
      = .err (.cannotApply (.formatFactory "json"))
    ∧ eval_object 5 pkgsScope (.select (.ident "pkgs") [.ident "formats", .ident "json"])
      = .ok (.formatFactory "json")
    ∧ eval_object 5 pkgsScope (.ident "pkgs") = .ok (.set .nixpkgs) :=
  ⟨rfl, rfl, rfl⟩

/-- Claim C5 counterexample: the module `{ pkgs, ... }: pkgs.zlib` is
accepted and its body evaluates to `Nixpkg "zlib"`, which does not coerce
to a set — yet `main` reports success, because line 281 discards the
evaluated value without any set coercion. -/
theorem c5_counterexample :
    runMain 3 (.lambda (.pattern none ["pkgs"]) (.select (.ident "pkgs") [.ident "zlib"]))
      = .ok
    ∧ eval_object 3 pkgsScope (.select (.ident "pkgs") [.ident "zlib"])
      = .ok (.nixpkg "zlib")
    ∧ (NixObject.nixpkg "zlib").try_into_set = .error (.notASetNixpkg "zlib") :=
  ⟨rfl, rfl, rfl⟩

/-- Claim C5 as amended: for every module whose top-level shape is accepted,
`main` evaluates the function body and, whenever evaluation succeeds,
reports success regardless of the resulting value — no coercion of the
result to a set is performed. -/
theorem c5_main_ignores_result_shape (fuel : Nat) (patBind : Option String)
    (patEntries : List String) (body : Expr) (scope : Scope) (v : NixObject)
    (h1 : addPatEntries (initialScope patBind) patEntries = .ok scope)
    (h2 : eval_object fuel scope body = .ok v) :
    runMain fuel (.lambda (.pattern patBind patEntries) body) = .ok := by
  simp [runMain, h1, h2]

/-- Witness for `c5_main_ignores_result_shape` at the module
`{ pkgs, ... }: pkgs.zlib`. -/
theorem c5_main_ignores_result_shape_witness :
    runMain 3 (.lambda (.pattern none ["pkgs"]) (.select (.ident "pkgs") [.ident "zlib"]))
      = .ok :=
  c5_main_ignores_result_shape 3 none ["pkgs"]
    (.select (.ident "pkgs") [.ident "zlib"]) pkgsScope (.nixpkg "zlib") rfl rfl

/-- Claim C6 counterexample: the call-package-arguments variant can also
return an absent member — `frobnicator` is not in `CALLPACKAGE_ARGS` — so
absence is not confined to the `Dynamic` and `Library` variants. -/
theorem c6_counterexample :
    NixSet.lookup NixSet.callpkgArgs "frobnicator" = none := rfl

/-- Claim C6 as amended: member lookup is a total function on every
variant (it is a Lean function into `Option`, never a panic), and it may
return absent only for the `Dynamic`, `Library` and call-package-arguments
variants: for the package set, the configuration root, configuration paths
and the format-factory set, every requested name yields a member. -/
theorem c6_lookup_always_some_variants (k : String) (p : List String) :
    (NixSet.nixpkgs.lookup k).isSome = true
    ∧ (NixSet.config.lookup k).isSome = true
    ∧ ((NixSet.configVal p).lookup k).isSome = true
    ∧ (NixSet.pkgsFormats.lookup k).isSome = true :=
  ⟨rfl, rfl, rfl, rfl⟩

/-- Claim C7 (refuted; the code panics instead): a `let` containing an
inherit entry does not produce a structured failure — the `Entry::Inherit`
arm is `todo!()` (main.rs lines 166-168), a process-aborting panic. -/
theorem c7_let_inherit_panics :
    eval_object 2 Scope.new (.letIn [.inheritEntry] (.ident "x")) = .panicked := rfl

/-- Claim C8 (refuted; attribute-set construction is unimplemented): the
two literals of the claim cannot produce any abstract value, equal or not.
Both `{ a.b = 1; a.c = 2; }` and `{ a = { b = 1; c = 2; }; }` fail while
evaluating the entry value `1`, since literals fall into the catch-all
error (first two conjuncts); and even with an evaluable entry value the
`AttrSet` arm unconditionally reaches `todo!()` after its entry loop, so no
`Dyn` set is ever returned (third conjunct). -/
theorem c8_attrset_literal_never_constructs :
    eval_object 10 pkgsScope
        (.attrSet false [.attrpathValue [.ident "a", .ident "b"] .literal,
                         .attrpathValue [.ident "a", .ident "c"] .literal])
      = .err (.cannotEvalType "literal")
    ∧ eval_object 10 pkgsScope
        (.attrSet false [.attrpathValue [.ident "a"]
          (.attrSet false [.attrpathValue [.ident "b"] .literal,
                           .attrpathValue [.ident "c"] .literal])])
      = .err (.cannotEvalType "literal")
    ∧ eval_object 10 pkgsScope
        (.attrSet false [.attrpathValue [.ident "a", .ident "b"] (.ident "pkgs")])
      = .panicked :=
  ⟨rfl, rfl, rfl⟩

/-- Claim C9 counterexample: evaluating the attribute-set literal `{ }`
panics (`todo!()`), an outcome that is neither an abstract value, nor a
typed failure, nor a `RecursionLimitExceeded` failure — no such failure
kind exists in the code, which has no recursion-depth limit at all. -/
theorem c9_counterexample :
    eval_object 1 Scope.new (.attrSet false []) = .panicked := rfl

/-- Claim C9 as amended: the evaluator has no recursion-depth limit and no
`RecursionLimitExceeded` failure kind; instead its recursion is structural
on the expression tree, so evaluation of every finite expression completes
with a value, a structured error, or a panic at an unimplemented construct:
fuel at least the size of the expression is never exhausted. -/
theorem c9_structural_termination (fuel : Nat) (s : Scope) (e : Expr)
    (h : sizeOf e ≤ fuel) : eval_object fuel s e ≠ Res.outOfFuel := by
  induction fuel generalizing s e with
  | zero => exact absurd (Nat.lt_of_lt_of_le (expr_sizeOf_pos e) h) (by simp)
  | succ n ih =>
    cases e with
    | with_ nsExpr body =>
      have hns : sizeOf nsExpr ≤ n := by simp at h; omega
      have hb : sizeOf body ≤ n := by simp at h; omega
      simp only [eval_object, evalStep]
      cases hv : eval_object n s nsExpr with
      | ok v =>
        simp only []
        cases hts : v.try_into_set with
        | ok st => simp only []; exact ih _ _ hb
        | error e0 => simp
      | err e0 => simp
      | panicked => simp
      | outOfFuel => exact absurd hv (ih s nsExpr hns)
    | letIn entries body =>
      have he : sizeOf entries ≤ n := by simp at h; omega
      have hb : sizeOf body ≤ n := by simp at h; omega
      simp only [eval_object, evalStep]
      cases hf : foldLetEntries (fun s e => eval_object n s e) s entries with
      | ok ns2 => simp only []; exact ih _ _ hb
      | fail r =>
        simp only []
        intro hcon
        subst hcon
        exact absurd hf (foldLetEntries_no_outOfFuel n ih entries s he)
    | attrSet isRec entries =>
      have he : sizeOf entries ≤ n := by simp at h; omega
      simp only [eval_object, evalStep]
      exact foldSetEntries_no_outOfFuel n ih entries s he
    | ident name =>
      simp only [eval_object, evalStep]
      cases hl : Scope.lookup s name <;> simp
    | select base attrpath =>
      have hb : sizeOf base ≤ n := by simp at h; omega
      simp only [eval_object, evalStep]
      cases hv : eval_object n s base with
      | ok initial => simp only []; exact foldSelect_no_outOfFuel attrpath initial
      | err e0 => simp
      | panicked => simp
      | outOfFuel => exact absurd hv (ih s base hb)
    | apply lam arg =>
      have hl : sizeOf lam ≤ n := by simp at h; omega
      have ha : sizeOf arg ≤ n := by simp at h; omega
      simp only [eval_object, evalStep]
      cases hv : eval_object n s lam with
      | ok lambda =>
        simp only []
        cases hv2 : eval_object n s arg with
        | ok argument => simp [NixObject.apply]
        | err e0 => simp
        | panicked => simp
        | outOfFuel => exact absurd hv2 (ih s arg ha)
      | err e0 => simp
      | panicked => simp
      | outOfFuel => exact absurd hv (ih s lam hl)
    | assert => simp [eval_object, evalStep]
    | error => simp [eval_object, evalStep]
    | ifElse => simp [eval_object, evalStep]
    | str => simp [eval_object, evalStep]
    | path => simp [eval_object, evalStep]
    | literal => simp [eval_object, evalStep]
    | lambda p b => simp [eval_object, evalStep]
    | legacyLet => simp [eval_object, evalStep]
    | list => simp [eval_object, evalStep]
    | binOp => simp [eval_object, evalStep]
    | paren => simp [eval_object, evalStep]
    | root => simp [eval_object, evalStep]
    | unaryOp => simp [eval_object, evalStep]
    | hasAttr => simp [eval_object, evalStep]

/-- Witness for `c9_structural_termination` at the empty attribute-set
literal with fuel 3. -/
theorem c9_structural_termination_witness :
    sizeOf (Expr.attrSet false []) ≤ 3
    ∧ eval_object 3 Scope.new (Expr.attrSet false []) ≠ Res.outOfFuel :=
  ⟨by simp_arith, c9_structural_termination 3 Scope.new (Expr.attrSet false []) (by simp_arith)⟩

/-- Claim C10 (confirmed): the namespace sub-expression of a `with` is
evaluated against the enclosing scope exactly as it stood — whatever a name
resolves to there (explicit `items` included, the new dynamic scope not yet
pushed) is what the `with` coerces to a set; only the body is then run in
the child scope, whose `items` are reset and folded into the namespace
chain together with the new namespace. -/
theorem c10_with_namespace_uses_outer_scope (fuel : Nat) (s : Scope)
    (name : String) (body : Expr) (v : NixObject)
    (h : s.lookup name = some v) :
    eval_object (fuel + 1 + 1) s (.with_ (.ident name) body) =
      match v.try_into_set with
      | .ok st =>
          eval_object (fuel + 1) ⟨[], s.with_namespaces ++ [.dyn s.items, st]⟩ body
      | .error e => .err e := by
  cases hts : v.try_into_set with
  | ok st => simp [eval_object, evalStep, h, hts]
  | error e0 => simp [eval_object, evalStep, h, hts]

/-- Witness for `c10_with_namespace_uses_outer_scope`: in
`{ pkgs, ... }: with pkgs; zlib` the namespace `pkgs` is resolved through
the outer scope via its explicit binding. -/
theorem c10_with_namespace_uses_outer_scope_witness :
    Scope.lookup pkgsScope "pkgs" = some (.set .nixpkgs)
    ∧ eval_object 4 pkgsScope (.with_ (.ident "pkgs") (.ident "zlib")) =
        eval_object 3 ⟨[], pkgsScope.with_namespaces ++ [.dyn pkgsScope.items, .nixpkgs]⟩
          (.ident "zlib") :=
  ⟨rfl, c10_with_namespace_uses_outer_scope 2 pkgsScope "pkgs" (.ident "zlib")
    (.set .nixpkgs) rfl⟩

end Rnix
